import Mathlib

/-!
Verification of the FinanceLake storage-layer pipeline (`data_storage.py`).

The Python module is glue over an external distributed dataframe engine and
a transactional table format.  We shallowly embed the datasets the code
manipulates (a dataset is a column list plus rows of key/value pairs), the
engine primitives the code calls (withColumn, filter, groupBy/agg, rename,
partitioned writes, reads with time travel options), and the methods of the
class FinanceLakeStorage that the claims are about.  Persistent storage is a
function from path to an optional dataset; a write is recorded as a WriteOp
holding the path, the dataset and the partition columns handed to the engine.
External scalar functions of the engine (casting to date, extracting
year/month/day) are parameters of the embedding.
-/

set_option autoImplicit false

namespace FinanceLake

/-- A cell value of a dataset: null, a string, an integer amount, or a date. -/
inductive Value where
  | null
  | str (s : String)
  | int (n : Int)
  | date (d : Nat)
deriving Repr, DecidableEq

/-- A row is an association list from column name to value. -/
abbrev Row := List (String × Value)

/-- First-match lookup of a column in a row. -/
def lookupV : Row → String → Option Value
  | [], _ => none
  | kv :: r, c => if kv.1 = c then some kv.2 else lookupV r c

/-- The value of a column in a row; null when the column is missing,
matching the engine's null semantics. -/
def Row.getV (r : Row) (c : String) : Value :=
  (lookupV r c).getD Value.null

/-- A dataset: a schema (ordered column names) and rows. -/
structure DataFrame where
  columns : List String
  rows : List Row
deriving Repr, DecidableEq

/-- Well-formedness: each row carries exactly the schema's columns in order. -/
def DataFrame.WF (df : DataFrame) : Prop :=
  ∀ r ∈ df.rows, r.map Prod.fst = df.columns

instance (df : DataFrame) : Decidable df.WF := by
  unfold DataFrame.WF; infer_instance

/-- Replace the value of an existing column in a row. -/
def updRow (name : String) (v : Value) (r : Row) : Row :=
  r.map (fun kv => if kv.1 = name then (kv.1, v) else kv)

/-- The engine's withColumn: replaces the column when present, otherwise
appends it at the end of the schema; the new value may depend on the row. -/
def withColumn (df : DataFrame) (name : String) (f : Row → Value) : DataFrame :=
  if name ∈ df.columns then
    { columns := df.columns, rows := df.rows.map (fun r => updRow name (f r) r) }
  else
    { columns := df.columns ++ [name], rows := df.rows.map (fun r => r ++ [(name, f r)]) }

/-- The engine's filter: keeps the rows satisfying the predicate. -/
def filterRows (df : DataFrame) (p : Row → Bool) : DataFrame :=
  { columns := df.columns, rows := df.rows.filter p }

/-- The engine's withColumnRenamed: renames every occurrence of a column. -/
def withColumnRenamed (df : DataFrame) (old new : String) : DataFrame :=
  { columns := df.columns.map (fun c => if c = old then new else c),
    rows := df.rows.map (fun r => r.map (fun kv => if kv.1 = old then (new, kv.2) else kv)) }

/-- Truth of the engine's comparison `column > 0` on a value: false on null
and on non-numeric values. -/
def valueGt0 : Value → Bool
  | .int n => decide (0 < n)
  | _ => false

/-- Keep the first occurrence of each group key, in order of appearance. -/
def dedupFirst (l : List (List Value)) : List (List Value) :=
  l.foldl (fun acc k => if k ∈ acc then acc else acc ++ [k]) []

/-- The grouping key of a row for a list of group-by columns. -/
def keyOf (cols : List String) (r : Row) : List Value :=
  cols.map (fun c => r.getV c)

/-- The engine's groupBy(...).count(): one row per distinct key with a
column named count holding the group size. -/
def groupCount (df : DataFrame) (cols : List String) : DataFrame :=
  { columns := cols ++ ["count"],
    rows := (dedupFirst (df.rows.map (keyOf cols))).map (fun k =>
      cols.zip k ++ [("count", Value.int (Int.ofNat (df.rows.countP (fun r => decide (keyOf cols r = k)))))]) }

/-- The aggregation functions the code requests from the engine. -/
inductive AggFn where
  | sum
  | count
deriving Repr, DecidableEq

/-- The engine's default name for an aggregated column, such as sum(amount). -/
def aggColName : AggFn → String → String
  | .sum, c => "sum(" ++ c ++ ")"
  | .count, c => "count(" ++ c ++ ")"

/-- Apply an aggregation function to the values of a group: sum ignores
nulls and is null when no numeric value is present; count counts non-nulls. -/
def applyAgg : AggFn → List Value → Value
  | .sum, vs =>
    let ns := vs.filterMap (fun v => match v with | .int n => some n | _ => none)
    if ns.isEmpty then Value.null else Value.int ns.sum
  | .count, vs => Value.int (Int.ofNat (vs.countP (fun v => !(decide (v = Value.null)))))

/-- The engine's groupBy(...).agg(spec) with a column-to-function spec. -/
def groupAgg (df : DataFrame) (cols : List String) (spec : List (String × AggFn)) : DataFrame :=
  { columns := cols ++ spec.map (fun cf => aggColName cf.2 cf.1),
    rows := (dedupFirst (df.rows.map (keyOf cols))).map (fun k =>
      cols.zip k ++ spec.map (fun cf =>
        (aggColName cf.2 cf.1,
         applyAgg cf.2 ((df.rows.filter (fun r => decide (keyOf cols r = k))).map (fun r => r.getV cf.1))))) }

/-- Persistent storage: path to optional dataset; a missing path is a read failure. -/
abbrev Store := String → Option DataFrame

/-- A write handed to the table-format collaborator: destination path, data,
and the partition columns passed to partitionBy (empty means unpartitioned). -/
structure WriteOp where
  path : String
  data : DataFrame
  partitionCols : List String
deriving Repr, DecidableEq

def bronzePath (base table_name : String) : String := base ++ "/bronze/" ++ table_name

def silverPath (base table_name : String) : String := base ++ "/silver/" ++ table_name

def goldPath (base table_name : String) : String := base ++ "/gold/" ++ table_name

/-- The date-derivation step of write_bronze_layer: applied only when date is
absent from the input schema; uses transaction_date cast to a date when
present, otherwise the engine's current_date. -/
def bronzeAddDate (castDate : Value → Value) (today : Nat) (df : DataFrame) : DataFrame :=
  if "date" ∈ df.columns then df
  else if "transaction_date" ∈ df.columns then
    withColumn df "date" (fun r => castDate (r.getV "transaction_date"))
  else
    withColumn df "date" (fun _ => Value.date today)

/-- The region-derivation step of write_bronze_layer: guards test the ORIGINAL
input schema, as in the source; copies country when present, else UNKNOWN. -/
def bronzeAddRegion (origCols : List String) (df : DataFrame) : DataFrame :=
  if "region" ∈ origCols then df
  else if "country" ∈ origCols then
    withColumn df "region" (fun r => r.getV "country")
  else
    withColumn df "region" (fun _ => Value.str "UNKNOWN")

/-- write_bronze_layer: derives date and region when absent, then writes with
the requested partition columns filtered to those present after derivation. -/
def write_bronze_layer (base table_name : String) (castDate : Value → Value) (today : Nat)
    (df : DataFrame) (partition_cols? : Option (List String)) : WriteOp :=
  let partition_cols := partition_cols?.getD ["date", "region"]
  let df2 := bronzeAddRegion df.columns (bronzeAddDate castDate today df)
  { path := bronzePath base table_name,
    data := df2,
    partitionCols := partition_cols.filter (fun c => decide (c ∈ df2.columns)) }

/-- read_bronze_layer: on read failure returns an empty dataset with the single
column id; otherwise applies each filter only when its column is present. -/
def read_bronze_layer (store : Store) (base table_name : String)
    (filters : Option (List (String × String))) : DataFrame :=
  match store (bronzePath base table_name) with
  | none => { columns := ["id"], rows := [] }
  | some df =>
    match filters with
    | none => df
    | some fs => fs.foldl (fun d cv =>
        if cv.1 ∈ d.columns then filterRows d (fun r => decide (r.getV cv.1 = Value.str cv.2)) else d) df

/-- The year/month/day derivation step of transform_to_silver, applied only
when the bronze dataset has a date column. -/
def silverDerive (yF mF dF : Value → Value) (bdf : DataFrame) : DataFrame :=
  if "date" ∈ bdf.columns then
    withColumn (withColumn (withColumn bdf "year" (fun r => yF (r.getV "date")))
      "month" (fun r => mF (r.getV "date"))) "day" (fun r => dF (r.getV "date"))
  else bdf

/-- Result of transform_to_silver: the silver write, the clustering columns,
whether the optimization was attempted, and the caught failure if any. -/
structure SilverResult where
  writeOp : WriteOp
  zorderCols : List String
  optimizeAttempted : Bool
  optimizeError : Option String
deriving Repr, DecidableEq

/-- transform_to_silver: reads the bronze table through read_bronze_layer,
derives year/month/day when date exists, filters positive amounts when amount
exists, writes partitioned by whichever of year/month and region the code
selects, then attempts a best-effort clustering optimization whose failure
(modelled by the optFails flag for the external call) is caught. -/
def transform_to_silver (store : Store) (base bronze_table silver_table : String)
    (yF mF dF : Value → Value) (optFails : Bool) : SilverResult :=
  let bronze_df := read_bronze_layer store base bronze_table none
  let silver1 := silverDerive yF mF dF bronze_df
  let silver2 :=
    if "amount" ∈ bronze_df.columns then
      filterRows (filterRows silver1 (fun r => !(decide (r.getV "amount" = Value.null))))
        (fun r => valueGt0 (r.getV "amount"))
    else silver1
  let partition_cols :=
    (if "year" ∈ silver2.columns then ["year", "month"] else []) ++
    (if "region" ∈ silver2.columns then ["region"] else [])
  let zorder_cols :=
    (if "customer_id" ∈ silver2.columns then ["customer_id"] else []) ++
    (if "transaction_type" ∈ silver2.columns then ["transaction_type"] else [])
  { writeOp := { path := silverPath base silver_table, data := silver2, partitionCols := partition_cols },
    zorderCols := zorder_cols,
    optimizeAttempted := !zorder_cols.isEmpty,
    optimizeError := if !zorder_cols.isEmpty && optFails then some "Z-ordering optimization failed" else none }

/-- The group-by column list of create_gold_aggregations, built exactly as in
the source: date, region, transaction_type appended when present, with a
fallback to a bare date list when none is present. -/
def gold_group_cols (cols : List String) : List String :=
  let g :=
    (if "date" ∈ cols then ["date"] else []) ++
    ((if "region" ∈ cols then ["region"] else []) ++
     (if "transaction_type" ∈ cols then ["transaction_type"] else []))
  if g = [] then ["date"] else g

/-- The aggregation spec of create_gold_aggregations: amount to sum and
customer_id to count, each only when the column is present. -/
def gold_agg_expr (cols : List String) : List (String × AggFn) :=
  (if "amount" ∈ cols then [("amount", AggFn.sum)] else []) ++
  (if "customer_id" ∈ cols then [("customer_id", AggFn.count)] else [])

/-- Result of create_gold_aggregations: the group-by columns and aggregation
spec it used, and the gold write. -/
structure GoldResult where
  groupCols : List String
  aggExpr : List (String × AggFn)
  writeOp : WriteOp
deriving Repr, DecidableEq

/-- The gold dataset built by create_gold_aggregations from the silver one:
aggregate when the spec is nonempty (then rename the engine-named aggregate
columns), otherwise fall back to a plain row count per group. -/
def goldData (silver_df : DataFrame) : DataFrame :=
  let group_cols := gold_group_cols silver_df.columns
  let agg_expr := gold_agg_expr silver_df.columns
  if agg_expr.isEmpty then groupCount silver_df group_cols
  else
    let g1 := groupAgg silver_df group_cols agg_expr
    let g2 := if "sum(amount)" ∈ g1.columns then withColumnRenamed g1 "sum(amount)" "total_amount" else g1
    if "count(customer_id)" ∈ g2.columns then withColumnRenamed g2 "count(customer_id)" "transaction_count" else g2

/-- create_gold_aggregations: reads the silver table directly (a missing table
is an error), groups by the computed columns (the engine raises when a
group-by column is absent), aggregates or falls back to a row count, renames
the aggregated columns, and writes partitioned by whichever of date and
region survive into the output schema. -/
def create_gold_aggregations (store : Store) (base silver_table gold_table : String) :
    Except String GoldResult :=
  match store (silverPath base silver_table) with
  | none => Except.error ("table not found: " ++ silverPath base silver_table)
  | some silver_df =>
    if (gold_group_cols silver_df.columns).all (fun c => decide (c ∈ silver_df.columns)) then
      let gold_df := goldData silver_df
      let partition_cols :=
        (if "date" ∈ gold_df.columns then ["date"] else []) ++
        (if "region" ∈ gold_df.columns then ["region"] else [])
      Except.ok { groupCols := gold_group_cols silver_df.columns,
                  aggExpr := gold_agg_expr silver_df.columns,
                  writeOp := { path := goldPath base gold_table, data := gold_df, partitionCols := partition_cols } }
    else Except.error "cannot resolve group-by column"

/-- Sequential strict filtering of query_with_optimization: the engine raises
at the first filter whose column is absent from the schema. -/
def applyFiltersStrict (d : DataFrame) : List (String × String) → Except String DataFrame
  | [] => Except.ok d
  | cv :: fs =>
    if cv.1 ∈ d.columns then
      applyFiltersStrict (filterRows d (fun r => decide (r.getV cv.1 = Value.str cv.2))) fs
    else Except.error ("cannot resolve column: " ++ cv.1)

/-- query_with_optimization: loads the table (error when missing) and applies
every equality filter unconditionally; caching has no observable effect. -/
def query_with_optimization (store : Store) (table_path : String)
    (query_filters : List (String × String)) : Except String DataFrame :=
  match store table_path with
  | none => Except.error ("table not found: " ++ table_path)
  | some df => applyFiltersStrict df query_filters

/-- How a Delta read addresses history: latest version, a version number, or
a timestamp. -/
inductive ReadMode where
  | latestVersion
  | versionAsOf (v : Nat)
  | timestampAsOf (t : String)
deriving Repr, DecidableEq

/-- time_travel_query: builds the read options exactly as the source does
(version first, elif timestamp, else no option) and performs the read. -/
def time_travel_query (load : String → ReadMode → DataFrame) (table_path : String)
    (version : Option Nat) (timestamp : Option String) : DataFrame :=
  match version with
  | some v => load table_path (ReadMode.versionAsOf v)
  | none =>
    match timestamp with
    | some t => load table_path (ReadMode.timestampAsOf t)
    | none => load table_path ReadMode.latestVersion

/-! ### Lemmas about row lookup and the engine primitives -/

theorem lookupV_append_ne (r : Row) (k : String) (v : Value) (c : String) (h : c ≠ k) :
    lookupV (r ++ [(k, v)]) c = lookupV r c := by
  induction r with
  | nil =>
    show (if k = c then some v else lookupV [] c) = none
    rw [if_neg (Ne.symm h)]
    rfl
  | cons hd tl ih =>
    show (if hd.1 = c then some hd.2 else lookupV (tl ++ [(k, v)]) c)
       = (if hd.1 = c then some hd.2 else lookupV tl c)
    by_cases hc : hd.1 = c
    · rw [if_pos hc, if_pos hc]
    · rw [if_neg hc, if_neg hc, ih]

theorem lookupV_append_self (r : Row) (c : String) (v : Value) (h : lookupV r c = none) :
    lookupV (r ++ [(c, v)]) c = some v := by
  induction r with
  | nil => simp [lookupV]
  | cons hd tl ih =>
    by_cases hc : hd.1 = c
    · rw [lookupV, if_pos hc] at h
      exact absurd h (by simp)
    · rw [lookupV, if_neg hc] at h
      show (if hd.1 = c then some hd.2 else lookupV (tl ++ [(c, v)]) c) = some v
      rw [if_neg hc, ih h]

theorem lookupV_eq_none_of_not_mem_keys (r : Row) (c : String) (h : c ∉ r.map Prod.fst) :
    lookupV r c = none := by
  induction r with
  | nil => rfl
  | cons hd tl ih =>
    rw [List.map_cons, List.mem_cons] at h
    push_neg at h
    rw [lookupV, if_neg (fun he => h.1 he.symm)]
    exact ih h.2

theorem lookupV_updRow_ne (r : Row) (name c : String) (v : Value) (h : c ≠ name) :
    lookupV (updRow name v r) c = lookupV r c := by
  induction r with
  | nil => rfl
  | cons hd tl ih =>
    show lookupV ((if hd.1 = name then (hd.1, v) else hd) :: updRow name v tl) c
       = lookupV (hd :: tl) c
    by_cases hn : hd.1 = name
    · rw [if_pos hn]
      show (if hd.1 = c then some v else lookupV (updRow name v tl) c)
         = (if hd.1 = c then some hd.2 else lookupV tl c)
      have hne : hd.1 ≠ c := by
        rw [hn]; exact fun he => h he.symm
      rw [if_neg hne, if_neg hne, ih]
    · rw [if_neg hn]
      show (if hd.1 = c then some hd.2 else lookupV (updRow name v tl) c)
         = (if hd.1 = c then some hd.2 else lookupV tl c)
      by_cases hc : hd.1 = c
      · rw [if_pos hc, if_pos hc]
      · rw [if_neg hc, if_neg hc, ih]

theorem getV_append_self (r : Row) (cols : List String) (c : String) (v : Value)
    (hkeys : r.map Prod.fst = cols) (hc : c ∉ cols) :
    Row.getV (r ++ [(c, v)]) c = v := by
  have hnone : lookupV r c = none :=
    lookupV_eq_none_of_not_mem_keys r c (by rw [hkeys]; exact hc)
  simp [Row.getV, lookupV_append_self r c v hnone]

theorem updRow_map_fst (r : Row) (name : String) (v : Value) :
    (updRow name v r).map Prod.fst = r.map Prod.fst := by
  induction r with
  | nil => rfl
  | cons hd tl ih =>
    show ((if hd.1 = name then (hd.1, v) else hd).1 :: (updRow name v tl).map Prod.fst)
       = hd.1 :: tl.map Prod.fst
    by_cases hn : hd.1 = name
    · rw [if_pos hn, ih]
    · rw [if_neg hn, ih]

theorem withColumn_rows_exists (df : DataFrame) (name : String) (f : Row → Value) :
    ∃ D : Row → Row, (withColumn df name f).rows = df.rows.map D ∧
      ∀ (c : String) (r : Row), c ≠ name → (D r).getV c = r.getV c := by
  by_cases h : name ∈ df.columns
  · refine ⟨fun r => updRow name (f r) r, ?_, ?_⟩
    · simp [withColumn, h]
    · intro c r hc
      simp [Row.getV, lookupV_updRow_ne r name c (f r) hc]
  · refine ⟨fun r => r ++ [(name, f r)], ?_, ?_⟩
    · simp [withColumn, h]
    · intro c r hc
      simp [Row.getV, lookupV_append_ne r name (f r) c hc]

theorem withColumn_map_getV (df : DataFrame) (name : String) (f : Row → Value) (c : String)
    (hc : c ≠ name) :
    (withColumn df name f).rows.map (fun r => r.getV c) = df.rows.map (fun r => r.getV c) := by
  obtain ⟨D, hrows, hpres⟩ := withColumn_rows_exists df name f
  rw [hrows, List.map_map]
  exact List.map_congr_left (fun r _ => hpres c r hc)

theorem withColumn_columns (df : DataFrame) (name : String) (f : Row → Value) :
    (withColumn df name f).columns =
      if name ∈ df.columns then df.columns else df.columns ++ [name] := by
  unfold withColumn
  split <;> rfl

theorem withColumn_WF (df : DataFrame) (name : String) (f : Row → Value) (h : df.WF) :
    (withColumn df name f).WF := by
  intro r hr
  by_cases hm : name ∈ df.columns
  · simp only [withColumn, if_pos hm, List.mem_map] at hr ⊢
    obtain ⟨r0, hr0, rfl⟩ := hr
    rw [updRow_map_fst]
    exact h r0 hr0
  · simp only [withColumn, if_neg hm, List.mem_map] at hr ⊢
    obtain ⟨r0, hr0, rfl⟩ := hr
    rw [List.map_append, h r0 hr0]
    rfl

theorem new_mem_rename (df : DataFrame) (old new : String) (h : old ∈ df.columns) :
    new ∈ (withColumnRenamed df old new).columns :=
  List.mem_map.mpr ⟨old, h, by rw [if_pos rfl]⟩

theorem mem_rename_of_mem (df : DataFrame) (old new c : String)
    (hc : c ∈ df.columns) (hne : c ≠ old) :
    c ∈ (withColumnRenamed df old new).columns :=
  List.mem_map.mpr ⟨c, hc, by rw [if_neg hne]⟩

theorem not_mem_rename_of (df : DataFrame) (old new c : String)
    (hne : c ≠ new) (hor : c = old ∨ c ∉ df.columns) :
    c ∉ (withColumnRenamed df old new).columns := by
  intro hmem
  obtain ⟨x, hx, hfx⟩ := List.mem_map.mp hmem
  by_cases hxo : x = old
  · rw [if_pos hxo] at hfx
    exact hne hfx.symm
  · rw [if_neg hxo] at hfx
    subst hfx
    rcases hor with h | h
    · exact hxo h
    · exact h hx

/-! ### Lemmas about the pipeline steps -/

theorem bronzeAddDate_map_getV (castDate : Value → Value) (today : Nat) (df : DataFrame)
    (c : String) (hc : c ≠ "date") :
    (bronzeAddDate castDate today df).rows.map (fun r => r.getV c)
      = df.rows.map (fun r => r.getV c) := by
  unfold bronzeAddDate
  split
  · rfl
  · split
    · exact withColumn_map_getV df "date" _ c hc
    · exact withColumn_map_getV df "date" _ c hc

theorem bronzeAddDate_map_getV_mem (castDate : Value → Value) (today : Nat) (df : DataFrame)
    (c : String) (hc : c ∈ df.columns) :
    (bronzeAddDate castDate today df).rows.map (fun r => r.getV c)
      = df.rows.map (fun r => r.getV c) := by
  by_cases hd : "date" ∈ df.columns
  · unfold bronzeAddDate
    rw [if_pos hd]
  · exact bronzeAddDate_map_getV castDate today df c (fun he => hd (he ▸ hc))

theorem bronzeAddDate_columns (castDate : Value → Value) (today : Nat) (df : DataFrame) :
    (bronzeAddDate castDate today df).columns = df.columns ∨
    (bronzeAddDate castDate today df).columns = df.columns ++ ["date"] := by
  unfold bronzeAddDate
  by_cases hd : "date" ∈ df.columns
  · rw [if_pos hd]
    exact Or.inl rfl
  · rw [if_neg hd]
    split <;> (right; rw [withColumn_columns, if_neg hd])

theorem bronzeAddDate_WF (castDate : Value → Value) (today : Nat) (df : DataFrame)
    (h : df.WF) : (bronzeAddDate castDate today df).WF := by
  unfold bronzeAddDate
  split
  · exact h
  · split <;> exact withColumn_WF df "date" _ h

theorem bronzeAddRegion_map_getV (origCols : List String) (df : DataFrame)
    (c : String) (hc : c ≠ "region") :
    (bronzeAddRegion origCols df).rows.map (fun r => r.getV c)
      = df.rows.map (fun r => r.getV c) := by
  unfold bronzeAddRegion
  split
  · rfl
  · split
    · exact withColumn_map_getV df "region" _ c hc
    · exact withColumn_map_getV df "region" _ c hc

theorem silverDerive_rows_exists (yF mF dF : Value → Value) (bdf : DataFrame) :
    ∃ D : Row → Row, (silverDerive yF mF dF bdf).rows = bdf.rows.map D ∧
      ∀ (c : String) (r : Row), c ≠ "year" → c ≠ "month" → c ≠ "day" →
        (D r).getV c = r.getV c := by
  unfold silverDerive
  split
  · obtain ⟨D1, h1, p1⟩ := withColumn_rows_exists bdf "year" (fun r => yF (r.getV "date"))
    obtain ⟨D2, h2, p2⟩ := withColumn_rows_exists
      (withColumn bdf "year" (fun r => yF (r.getV "date"))) "month" (fun r => mF (r.getV "date"))
    obtain ⟨D3, h3, p3⟩ := withColumn_rows_exists
      (withColumn (withColumn bdf "year" (fun r => yF (r.getV "date")))
        "month" (fun r => mF (r.getV "date"))) "day" (fun r => dF (r.getV "date"))
    refine ⟨fun r => D3 (D2 (D1 r)), ?_, ?_⟩
    · rw [h3, h2, h1, List.map_map, List.map_map]
      rfl
    · intro c r hy hm hd
      rw [p3 c (D2 (D1 r)) hd, p2 c (D1 r) hm, p1 c r hy]
  · exact ⟨id, by simp, fun c r _ _ _ => rfl⟩

theorem read_bronze_some (store : Store) (base table_name : String) (bdf : DataFrame)
    (h : store (bronzePath base table_name) = some bdf) :
    read_bronze_layer store base table_name none = bdf := by
  unfold read_bronze_layer
  rw [h]

theorem transform_to_silver_data (store : Store) (base bronze_table silver_table : String)
    (yF mF dF : Value → Value) (optFails : Bool) :
    (transform_to_silver store base bronze_table silver_table yF mF dF optFails).writeOp.data =
      (if "amount" ∈ (read_bronze_layer store base bronze_table none).columns then
        filterRows
          (filterRows (silverDerive yF mF dF (read_bronze_layer store base bronze_table none))
            (fun r => !(decide (r.getV "amount" = Value.null))))
          (fun r => valueGt0 (r.getV "amount"))
      else silverDerive yF mF dF (read_bronze_layer store base bronze_table none)) := rfl

theorem transform_to_silver_partitionCols (store : Store)
    (base bronze_table silver_table : String)
    (yF mF dF : Value → Value) (optFails : Bool) :
    (transform_to_silver store base bronze_table silver_table yF mF dF optFails).writeOp.partitionCols =
      (if "year" ∈ (transform_to_silver store base bronze_table silver_table yF mF dF optFails).writeOp.data.columns
        then ["year", "month"] else []) ++
      (if "region" ∈ (transform_to_silver store base bronze_table silver_table yF mF dF optFails).writeOp.data.columns
        then ["region"] else []) := rfl

theorem create_gold_ok (store : Store) (base silver_table gold_table : String)
    (sdf : DataFrame) (g : GoldResult)
    (hs : store (silverPath base silver_table) = some sdf)
    (hok : create_gold_aggregations store base silver_table gold_table = Except.ok g) :
    g = { groupCols := gold_group_cols sdf.columns,
          aggExpr := gold_agg_expr sdf.columns,
          writeOp := { path := goldPath base gold_table,
                       data := goldData sdf,
                       partitionCols :=
                         (if "date" ∈ (goldData sdf).columns then ["date"] else []) ++
                         (if "region" ∈ (goldData sdf).columns then ["region"] else []) } } := by
  have h2 : create_gold_aggregations store base silver_table gold_table =
      (if (gold_group_cols sdf.columns).all (fun c => decide (c ∈ sdf.columns)) then
        Except.ok { groupCols := gold_group_cols sdf.columns,
                    aggExpr := gold_agg_expr sdf.columns,
                    writeOp := { path := goldPath base gold_table,
                                 data := goldData sdf,
                                 partitionCols :=
                                   (if "date" ∈ (goldData sdf).columns then ["date"] else []) ++
                                   (if "region" ∈ (goldData sdf).columns then ["region"] else []) } }
      else Except.error "cannot resolve group-by column") := by
    unfold create_gold_aggregations
    rw [hs]
  rw [h2] at hok
  by_cases hall : ((gold_group_cols sdf.columns).all (fun c => decide (c ∈ sdf.columns))) = true
  · rw [if_pos hall] at hok
    injection hok with h
    exact h.symm
  · rw [if_neg hall] at hok
    exact absurd hok (by simp)

theorem gold_group_cols_mem (cols : List String) (x : String)
    (h : x ∈ gold_group_cols cols) :
    x = "date" ∨ x = "region" ∨ x = "transaction_type" := by
  unfold gold_group_cols at h
  by_cases h1 : "date" ∈ cols <;> by_cases h2 : "region" ∈ cols <;>
    by_cases h3 : "transaction_type" ∈ cols <;>
    simp [h1, h2, h3] at h <;> tauto

theorem transform_to_silver_path (store : Store) (base bronze_table silver_table : String)
    (yF mF dF : Value → Value) (optFails : Bool) :
    (transform_to_silver store base bronze_table silver_table yF mF dF optFails).writeOp.path
      = silverPath base silver_table := rfl

theorem transform_to_silver_zorderCols (store : Store) (base bronze_table silver_table : String)
    (yF mF dF : Value → Value) (optFails : Bool) :
    (transform_to_silver store base bronze_table silver_table yF mF dF optFails).zorderCols =
      (if "customer_id" ∈ (transform_to_silver store base bronze_table silver_table yF mF dF optFails).writeOp.data.columns
        then ["customer_id"] else []) ++
      (if "transaction_type" ∈ (transform_to_silver store base bronze_table silver_table yF mF dF optFails).writeOp.data.columns
        then ["transaction_type"] else []) := rfl

theorem transform_to_silver_attempted (store : Store) (base bronze_table silver_table : String)
    (yF mF dF : Value → Value) (optFails : Bool) :
    (transform_to_silver store base bronze_table silver_table yF mF dF optFails).optimizeAttempted
      = !((transform_to_silver store base bronze_table silver_table yF mF dF optFails).zorderCols.isEmpty) := rfl

/-! ### The claims -/

/-- C1: create_gold_aggregations builds its group-by column list as the subset
of date, region, transaction_type present in the silver schema, kept in that
fixed order; when none of the three is present the list used is exactly
the singleton date list. -/
theorem claim_gold_group_cols (cols : List String) :
    (("date" ∈ cols ∨ "region" ∈ cols ∨ "transaction_type" ∈ cols) →
      gold_group_cols cols = ["date", "region", "transaction_type"].filter (fun c => decide (c ∈ cols))) ∧
    (("date" ∉ cols ∧ "region" ∉ cols ∧ "transaction_type" ∉ cols) →
      gold_group_cols cols = ["date"]) := by
  by_cases h1 : "date" ∈ cols <;> by_cases h2 : "region" ∈ cols <;>
    by_cases h3 : "transaction_type" ∈ cols <;>
    constructor <;> intro h <;> simp [gold_group_cols, h1, h2, h3] <;> tauto

/-- Witness for C1 at two concrete schemas: one with only region among the
preferred columns, and one with none of them. -/
theorem claim_gold_group_cols_witness :
    gold_group_cols ["region", "amount"] = ["region"] ∧ gold_group_cols ["amount"] = ["date"] := by
  constructor
  · have h := (claim_gold_group_cols ["region", "amount"]).1 (Or.inr (Or.inl (by decide)))
    simpa using h
  · exact (claim_gold_group_cols ["amount"]).2 (by decide)

/-- C2: when the bronze location of a table cannot be read, read_bronze_layer
does not fail: for every filters argument it returns the empty dataset whose
schema is exactly the single column id. -/
theorem claim_read_bronze_missing (store : Store) (base table_name : String)
    (filters : Option (List (String × String)))
    (h : store (bronzePath base table_name) = none) :
    read_bronze_layer store base table_name filters = { columns := ["id"], rows := [] } := by
  unfold read_bronze_layer
  rw [h]

/-- Witness for C2: a store with no tables, queried with a nonempty filters
mapping. -/
theorem claim_read_bronze_missing_witness :
    read_bronze_layer (fun _ => none) "base" "transactions" (some [("region", "US")])
      = { columns := ["id"], rows := [] } :=
  claim_read_bronze_missing (fun _ => none) "base" "transactions" (some [("region", "US")]) rfl

/-- C7: time_travel_query reads by version whenever version is supplied, even
when a timestamp is also supplied; by timestamp when only the timestamp is
supplied; and as an ordinary latest-version read when neither is supplied. -/
theorem claim_time_travel_precedence (load : String → ReadMode → DataFrame)
    (table_path : String) (v : Nat) (t : String) :
    time_travel_query load table_path (some v) (some t) = load table_path (ReadMode.versionAsOf v) ∧
    time_travel_query load table_path (some v) none = load table_path (ReadMode.versionAsOf v) ∧
    time_travel_query load table_path none (some t) = load table_path (ReadMode.timestampAsOf t) ∧
    time_travel_query load table_path none none = load table_path ReadMode.latestVersion :=
  ⟨rfl, rfl, rfl, rfl⟩

/-- C8: transform_to_silver clusters on whichever of customer_id and
transaction_type are present in the silver dataset, attempts the optimization
exactly when that list is nonempty, and a failure of the optimization call
never changes the completed silver write nor the normal return: the result is
identical whether the external optimization call fails or succeeds, except
for the logged failure. -/
theorem claim_silver_zorder_best_effort (store : Store)
    (base bronze_table silver_table : String) (yF mF dF : Value → Value) (optFails : Bool) :
    (transform_to_silver store base bronze_table silver_table yF mF dF optFails).writeOp
      = (transform_to_silver store base bronze_table silver_table yF mF dF false).writeOp ∧
    (transform_to_silver store base bronze_table silver_table yF mF dF optFails).zorderCols =
      (if "customer_id" ∈ (transform_to_silver store base bronze_table silver_table yF mF dF optFails).writeOp.data.columns
        then ["customer_id"] else []) ++
      (if "transaction_type" ∈ (transform_to_silver store base bronze_table silver_table yF mF dF optFails).writeOp.data.columns
        then ["transaction_type"] else []) ∧
    (transform_to_silver store base bronze_table silver_table yF mF dF optFails).optimizeAttempted
      = !((transform_to_silver store base bronze_table silver_table yF mF dF optFails).zorderCols.isEmpty) ∧
    (transform_to_silver store base bronze_table silver_table yF mF dF optFails).optimizeError
      = (if !((transform_to_silver store base bronze_table silver_table yF mF dF optFails).zorderCols.isEmpty) && optFails
          then some "Z-ordering optimization failed" else none) :=
  ⟨rfl, rfl, rfl, rfl⟩

/-- C10: when the bronze table is missing, transform_to_silver still runs to
completion: it inherits the empty id-schema fallback of read_bronze_layer,
skips derivation, filtering and clustering, and overwrites the silver
location with that empty unpartitioned dataset. -/
theorem claim_silver_fail_open (store : Store) (base bronze_table silver_table : String)
    (yF mF dF : Value → Value) (optFails : Bool)
    (h : store (bronzePath base bronze_table) = none) :
    (transform_to_silver store base bronze_table silver_table yF mF dF optFails).writeOp.path
      = silverPath base silver_table ∧
    (transform_to_silver store base bronze_table silver_table yF mF dF optFails).writeOp.data
      = { columns := ["id"], rows := [] } ∧
    (transform_to_silver store base bronze_table silver_table yF mF dF optFails).writeOp.partitionCols = [] ∧
    (transform_to_silver store base bronze_table silver_table yF mF dF optFails).zorderCols = [] ∧
    (transform_to_silver store base bronze_table silver_table yF mF dF optFails).optimizeAttempted = false := by
  have hb : read_bronze_layer store base bronze_table none = { columns := ["id"], rows := [] } := by
    unfold read_bronze_layer
    rw [h]
  have hdata : (transform_to_silver store base bronze_table silver_table yF mF dF optFails).writeOp.data
      = { columns := ["id"], rows := [] } := by
    rw [transform_to_silver_data, hb, if_neg (by decide)]
    unfold silverDerive
    rw [if_neg (by decide)]
  refine ⟨transform_to_silver_path store base bronze_table silver_table yF mF dF optFails, hdata, ?_, ?_, ?_⟩
  · rw [transform_to_silver_partitionCols, hdata]
    decide
  · rw [transform_to_silver_zorderCols, hdata]
    decide
  · rw [transform_to_silver_attempted, transform_to_silver_zorderCols, hdata]
    decide

/-- Witness for C10: an empty store. -/
theorem claim_silver_fail_open_witness :
    (transform_to_silver (fun _ => none) "base" "tx" "silver_tx" id id id true).writeOp.data
      = { columns := ["id"], rows := [] } ∧
    (transform_to_silver (fun _ => none) "base" "tx" "silver_tx" id id id true).writeOp.partitionCols = [] ∧
    (transform_to_silver (fun _ => none) "base" "tx" "silver_tx" id id id true).optimizeAttempted = false :=
  have h := claim_silver_fail_open (fun _ => none) "base" "tx" "silver_tx" id id id true rfl
  ⟨h.2.1, h.2.2.1, h.2.2.2.2⟩

theorem applyFiltersStrict_error (fs : List (String × String)) :
    ∀ (d : DataFrame) (cv : String × String), cv ∈ fs → cv.1 ∉ d.columns →
      ∃ e, applyFiltersStrict d fs = Except.error e := by
  induction fs with
  | nil =>
    intro d cv h hn
    exact absurd h (List.not_mem_nil cv)
  | cons hd tl ih =>
    intro d cv hmem hn
    by_cases hc : hd.1 ∈ d.columns
    · have htl : cv ∈ tl := by
        rcases List.mem_cons.mp hmem with h | h
        · rw [h] at hn
          exact absurd hc hn
        · exact h
      obtain ⟨e, he⟩ := ih (filterRows d (fun r => decide (r.getV hd.1 = Value.str hd.2))) cv htl hn
      refine ⟨e, ?_⟩
      simp only [applyFiltersStrict]
      rw [if_pos hc]
      exact he
    · refine ⟨"cannot resolve column: " ++ hd.1, ?_⟩
      simp only [applyFiltersStrict]
      rw [if_neg hc]

theorem read_bronze_filters_ignored (fs : List (String × String)) :
    ∀ d : DataFrame, (∀ cv ∈ fs, cv.1 ∉ d.columns) →
      fs.foldl (fun d cv =>
        if cv.1 ∈ d.columns then filterRows d (fun r => decide (r.getV cv.1 = Value.str cv.2)) else d) d = d := by
  induction fs with
  | nil =>
    intro d _
    rfl
  | cons hd tl ih =>
    intro d h
    have h1 : hd.1 ∉ d.columns := h hd (List.mem_cons_self hd tl)
    simp only [List.foldl_cons]
    rw [if_neg h1]
    exact ih d (fun cv hcv => h cv (List.mem_cons_of_mem hd hcv))

/-- C9: query_with_optimization applies every supplied equality filter without
checking that its column exists, so a filters mapping naming a column absent
from the loaded dataset makes the call fail; read_bronze_layer by contrast
silently ignores filter entries for absent columns and returns the dataset
unchanged. -/
theorem claim_query_strict_filters :
    (∀ (store : Store) (table_path : String) (query_filters : List (String × String))
       (df : DataFrame) (cv : String × String),
      store table_path = some df → cv ∈ query_filters → cv.1 ∉ df.columns →
      ∃ e, query_with_optimization store table_path query_filters = Except.error e) ∧
    (∀ (store : Store) (base table_name : String) (fs : List (String × String)) (df : DataFrame),
      store (bronzePath base table_name) = some df → (∀ cv ∈ fs, cv.1 ∉ df.columns) →
      read_bronze_layer store base table_name (some fs) = df) := by
  constructor
  · intro store tp fs df cv hs hmem hn
    unfold query_with_optimization
    rw [hs]
    exact applyFiltersStrict_error fs df cv hmem hn
  · intro store base tn fs df hs hall
    unfold read_bronze_layer
    rw [hs]
    exact read_bronze_filters_ignored fs df hall

/-- Witness for C9: a one-column dataset queried with a filter on a missing
column raises in query_with_optimization and is ignored by read_bronze_layer. -/
theorem claim_query_strict_filters_witness :
    (∃ e, query_with_optimization (fun _ => some { columns := ["region"], rows := [] })
      "p" [("amount", "5")] = Except.error e) ∧
    read_bronze_layer (fun _ => some { columns := ["region"], rows := [] })
      "b" "t" (some [("amount", "5")]) = { columns := ["region"], rows := [] } := by
  constructor
  · exact claim_query_strict_filters.1 (fun _ => some { columns := ["region"], rows := [] }) "p"
      [("amount", "5")] { columns := ["region"], rows := [] } ("amount", "5") rfl (by decide) (by decide)
  · exact claim_query_strict_filters.2 (fun _ => some { columns := ["region"], rows := [] }) "b" "t"
      [("amount", "5")] { columns := ["region"], rows := [] } rfl (by decide)

theorem bronzeAddRegion_rows_exists (origCols : List String) (df : DataFrame) :
    ∃ D : Row → Row, (bronzeAddRegion origCols df).rows = df.rows.map D ∧
      ∀ (c : String) (r : Row), c ≠ "region" → (D r).getV c = r.getV c := by
  unfold bronzeAddRegion
  split
  · exact ⟨id, by simp, fun c r _ => rfl⟩
  · split
    · exact withColumn_rows_exists df "region" _
    · exact withColumn_rows_exists df "region" _

theorem bronzeAddRegion_not_mem (castDate : Value → Value)
    (today : Nat) (df : DataFrame) (h : "region" ∉ df.columns) :
    "region" ∉ (bronzeAddDate castDate today df).columns := by
  rcases bronzeAddDate_columns castDate today df with hc | hc
  · rw [hc]
    exact h
  · rw [hc]
    intro hm
    rcases List.mem_append.mp hm with h2 | h2
    · exact h h2
    · simp at h2

theorem write_bronze_data (base table_name : String) (castDate : Value → Value) (today : Nat)
    (df : DataFrame) (pcols : Option (List String)) :
    (write_bronze_layer base table_name castDate today df pcols).data
      = bronzeAddRegion df.columns (bronzeAddDate castDate today df) := rfl

/-- C4: write_bronze_layer derives partition columns only when absent: a
missing date column is filled from transaction_date cast to a date when that
column exists and from the current processing date (non-null) otherwise; a
missing region column is filled from country when that column exists and
with the literal UNKNOWN otherwise; the values of columns already present
are left unchanged. -/
theorem claim_bronze_derivation (base table_name : String) (castDate : Value → Value)
    (today : Nat) (df : DataFrame) (pcols : Option (List String)) (hwf : df.WF) :
    (("date" ∉ df.columns ∧ "transaction_date" ∈ df.columns) →
      (write_bronze_layer base table_name castDate today df pcols).data.rows.map (fun r => r.getV "date")
        = df.rows.map (fun r => castDate (r.getV "transaction_date"))) ∧
    (("date" ∉ df.columns ∧ "transaction_date" ∉ df.columns) →
      ∀ r ∈ (write_bronze_layer base table_name castDate today df pcols).data.rows,
        r.getV "date" = Value.date today ∧ r.getV "date" ≠ Value.null) ∧
    (("region" ∉ df.columns ∧ "country" ∈ df.columns) →
      (write_bronze_layer base table_name castDate today df pcols).data.rows.map (fun r => r.getV "region")
        = df.rows.map (fun r => r.getV "country")) ∧
    (("region" ∉ df.columns ∧ "country" ∉ df.columns) →
      ∀ r ∈ (write_bronze_layer base table_name castDate today df pcols).data.rows,
        r.getV "region" = Value.str "UNKNOWN") ∧
    (∀ c ∈ df.columns,
      (write_bronze_layer base table_name castDate today df pcols).data.rows.map (fun r => r.getV c)
        = df.rows.map (fun r => r.getV c)) := by
  refine ⟨?_, ?_, ?_, ?_, ?_⟩
  · rintro ⟨hd, ht⟩
    rw [write_bronze_data, bronzeAddRegion_map_getV df.columns _ "date" (by decide)]
    unfold bronzeAddDate
    rw [if_neg hd, if_pos ht]
    have hrows : (withColumn df "date" (fun r => castDate (r.getV "transaction_date"))).rows
        = df.rows.map (fun r => r ++ [("date", castDate (Row.getV r "transaction_date"))]) := by
      unfold withColumn
      rw [if_neg hd]
    rw [hrows, List.map_map]
    refine List.map_congr_left ?_
    intro r hr
    exact getV_append_self r df.columns "date" _ (hwf r hr) hd
  · rintro ⟨hd, ht⟩
    intro r hr
    rw [write_bronze_data] at hr
    obtain ⟨D, hD, hp⟩ := bronzeAddRegion_rows_exists df.columns (bronzeAddDate castDate today df)
    rw [hD] at hr
    obtain ⟨r0, hr0, rfl⟩ := List.mem_map.mp hr
    rw [hp "date" r0 (by decide)]
    have hrows : (bronzeAddDate castDate today df).rows
        = df.rows.map (fun r => r ++ [("date", Value.date today)]) := by
      unfold bronzeAddDate withColumn
      rw [if_neg hd, if_neg ht, if_neg hd]
    rw [hrows] at hr0
    obtain ⟨r1, hr1, rfl⟩ := List.mem_map.mp hr0
    rw [getV_append_self r1 df.columns "date" (Value.date today) (hwf r1 hr1) hd]
    exact ⟨rfl, fun hcon => Value.noConfusion hcon⟩
  · rintro ⟨hr0, hc⟩
    rw [write_bronze_data]
    unfold bronzeAddRegion
    rw [if_neg hr0, if_pos hc]
    have hreg1 : "region" ∉ (bronzeAddDate castDate today df).columns :=
      bronzeAddRegion_not_mem castDate today df hr0
    have hrows : (withColumn (bronzeAddDate castDate today df) "region" (fun r => r.getV "country")).rows
        = (bronzeAddDate castDate today df).rows.map (fun r => r ++ [("region", Row.getV r "country")]) := by
      unfold withColumn
      rw [if_neg hreg1]
    rw [hrows, List.map_map]
    have hwf1 : (bronzeAddDate castDate today df).WF := bronzeAddDate_WF castDate today df hwf
    refine (List.map_congr_left ?_).trans (bronzeAddDate_map_getV castDate today df "country" (by decide))
    intro r hr
    exact getV_append_self r (bronzeAddDate castDate today df).columns "region" (Row.getV r "country") (hwf1 r hr) hreg1
  · rintro ⟨hr0, hc⟩
    intro r hr
    rw [write_bronze_data] at hr
    have hreg1 : "region" ∉ (bronzeAddDate castDate today df).columns :=
      bronzeAddRegion_not_mem castDate today df hr0
    have hrows : (bronzeAddRegion df.columns (bronzeAddDate castDate today df)).rows
        = (bronzeAddDate castDate today df).rows.map (fun r => r ++ [("region", Value.str "UNKNOWN")]) := by
      unfold bronzeAddRegion withColumn
      rw [if_neg hr0, if_neg hc, if_neg hreg1]
    rw [hrows] at hr
    obtain ⟨r1, hr1, rfl⟩ := List.mem_map.mp hr
    have hwf1 : (bronzeAddDate castDate today df).WF := bronzeAddDate_WF castDate today df hwf
    exact getV_append_self r1 (bronzeAddDate castDate today df).columns "region" (Value.str "UNKNOWN") (hwf1 r1 hr1) hreg1
  · intro c hcmem
    rw [write_bronze_data]
    by_cases hr0 : "region" ∈ df.columns
    · unfold bronzeAddRegion
      rw [if_pos hr0]
      exact bronzeAddDate_map_getV_mem castDate today df c hcmem
    · have hcr : c ≠ "region" := fun he => hr0 (he ▸ hcmem)
      rw [bronzeAddRegion_map_getV df.columns _ c hcr]
      exact bronzeAddDate_map_getV_mem castDate today df c hcmem

/-- Witness for C4: a one-row dataset with transaction_date and no country;
date is copied through the cast and region becomes UNKNOWN. -/
theorem claim_bronze_derivation_witness :
    (write_bronze_layer "b" "t" id 9
      { columns := ["transaction_date"], rows := [[("transaction_date", Value.str "2024-01-01")]] }
      none).data.rows.map (fun r => r.getV "date") = [Value.str "2024-01-01"] ∧
    Row.getV [("transaction_date", Value.str "2024-01-01"), ("date", Value.str "2024-01-01"),
      ("region", Value.str "UNKNOWN")] "region" = Value.str "UNKNOWN" := by
  have h := claim_bronze_derivation "b" "t" id 9
    { columns := ["transaction_date"], rows := [[("transaction_date", Value.str "2024-01-01")]] }
    none (by decide)
  constructor
  · simpa using h.1 ⟨by decide, by decide⟩
  · exact h.2.2.2.1 ⟨by decide, by decide⟩
      [("transaction_date", Value.str "2024-01-01"), ("date", Value.str "2024-01-01"),
       ("region", Value.str "UNKNOWN")] (by decide)

/-- C5: transform_to_silver drops exactly the rows whose amount is null or
non-positive when the bronze dataset has an amount column (every surviving
column projection equals the projection of the kept bronze rows, where a row
is kept exactly when its amount is a positive integer), and passes every row
through when there is no amount column; on null-or-integer amounts the kept
predicate is exactly the complement of null-or-non-positive. -/
theorem claim_silver_amount_filter (store : Store) (base bronze_table silver_table : String)
    (yF mF dF : Value → Value) (optFails : Bool) (bdf : DataFrame)
    (hs : store (bronzePath base bronze_table) = some bdf) :
    ("amount" ∈ bdf.columns →
      ∀ c ∈ bdf.columns, c ≠ "year" → c ≠ "month" → c ≠ "day" →
        (transform_to_silver store base bronze_table silver_table yF mF dF optFails).writeOp.data.rows.map
            (fun r => r.getV c)
          = (bdf.rows.filter (fun r => valueGt0 (r.getV "amount"))).map (fun r => r.getV c)) ∧
    ("amount" ∉ bdf.columns →
      (transform_to_silver store base bronze_table silver_table yF mF dF optFails).writeOp.data.rows.length
          = bdf.rows.length ∧
      ∀ c ∈ bdf.columns, c ≠ "year" → c ≠ "month" → c ≠ "day" →
        (transform_to_silver store base bronze_table silver_table yF mF dF optFails).writeOp.data.rows.map
            (fun r => r.getV c)
          = bdf.rows.map (fun r => r.getV c)) ∧
    (∀ v : Value, (v = Value.null ∨ ∃ n : Int, v = Value.int n) →
      (valueGt0 v = false ↔ (v = Value.null ∨ ∃ n : Int, v = Value.int n ∧ n ≤ 0))) := by
  have hb := read_bronze_some store base bronze_table bdf hs
  obtain ⟨D, hD, hp⟩ := silverDerive_rows_exists yF mF dF bdf
  refine ⟨?_, ?_, ?_⟩
  · intro ham c hcmem hy hm hd
    rw [transform_to_silver_data, hb, if_pos ham]
    simp only [filterRows]
    rw [List.filter_filter, hD, List.filter_map, List.map_map]
    have hfil : bdf.rows.filter
        ((fun a => valueGt0 (Row.getV a "amount") && !(decide (Row.getV a "amount" = Value.null))) ∘ D)
        = bdf.rows.filter (fun r => valueGt0 (r.getV "amount")) := by
      refine List.filter_congr ?_
      intro r hr
      have hamt : Row.getV (D r) "amount" = Row.getV r "amount" :=
        hp "amount" r (by decide) (by decide) (by decide)
      simp only [Function.comp_apply, hamt]
      cases hv : Row.getV r "amount" <;> simp [valueGt0, hv]
    rw [hfil]
    exact List.map_congr_left (fun r hr => hp c r hy hm hd)
  · intro ham
    rw [transform_to_silver_data, hb, if_neg ham]
    constructor
    · rw [hD, List.length_map]
    · intro c hcmem hy hm hd
      rw [hD, List.map_map]
      exact List.map_congr_left (fun r hr => hp c r hy hm hd)
  · intro v hv
    rcases hv with rfl | ⟨n, rfl⟩
    · simp [valueGt0]
    · constructor
      · intro h
        right
        refine ⟨n, rfl, ?_⟩
        by_contra hlt
        push_neg at hlt
        simp [valueGt0, hlt] at h
      · rintro (h | ⟨m, hm, hle⟩)
        · exact absurd h (by simp)
        · injection hm with hmn
          subst hmn
          simp [valueGt0]
          omega

/-- A bronze dataset with a null, a negative and a positive amount. -/
def bdfAmounts : DataFrame :=
  { columns := ["amount"], rows := [[("amount", Value.null)], [("amount", Value.int (-5))], [("amount", Value.int 3)]] }

/-- A bronze dataset without an amount column. -/
def bdfRegionOnly : DataFrame :=
  { columns := ["region"], rows := [[("region", Value.str "US")]] }

/-- Witness for C5: a bronze table whose amounts are a null, a negative and a
positive value keeps exactly the positive row; a table without amount keeps
its single row. -/
theorem claim_silver_amount_filter_witness :
    (transform_to_silver (fun _ => some bdfAmounts) "b" "t" "s" id id id false).writeOp.data.rows.map
        (fun r => r.getV "amount") = [Value.int 3] ∧
    (transform_to_silver (fun _ => some bdfRegionOnly) "b" "t" "s" id id id false).writeOp.data.rows.length = 1 := by
  constructor
  · have h := claim_silver_amount_filter (fun _ => some bdfAmounts) "b" "t" "s" id id id false bdfAmounts rfl
    have h1 := h.1 (by decide) "amount" (by decide) (by decide) (by decide) (by decide)
    rw [h1]
    decide
  · have h := claim_silver_amount_filter (fun _ => some bdfRegionOnly) "b" "t" "s" id id id false bdfRegionOnly rfl
    exact ((h.2.1 (by decide)).1).trans (by decide)

theorem write_bronze_partitionCols (base table_name : String) (castDate : Value → Value)
    (today : Nat) (df : DataFrame) (pcols : Option (List String)) :
    (write_bronze_layer base table_name castDate today df pcols).partitionCols
      = (pcols.getD ["date", "region"]).filter
          (fun c => decide (c ∈ (write_bronze_layer base table_name castDate today df pcols).data.columns)) := rfl

/-- Counterexample for C3 as stated: a bronze table holding a year column but
no month column makes transform_to_silver pass the partition column month to
the write although month is absent from the dataset being written. -/
theorem claim_partition_subset_cex :
    "month" ∈ (transform_to_silver (fun _ => some { columns := ["year"], rows := [] })
      "b" "t" "s" id id id false).writeOp.partitionCols ∧
    "month" ∉ (transform_to_silver (fun _ => some { columns := ["year"], rows := [] })
      "b" "t" "s" id id id false).writeOp.data.columns := by
  decide

/-- C3 amended: the partition columns of write_bronze_layer are exactly the
requested list filtered, in order, to the post-derivation schema (hence a
subset of it), and the partition columns of create_gold_aggregations are a
subset of the written schema; for transform_to_silver the subset property
holds provided the silver dataset does not contain a year column without a
month column (the counterexample shows it fails otherwise). -/
theorem claim_partition_subset_amended :
    (∀ (base table_name : String) (castDate : Value → Value) (today : Nat)
       (df : DataFrame) (pcols : List String),
      (write_bronze_layer base table_name castDate today df (some pcols)).partitionCols
        = pcols.filter (fun c =>
            decide (c ∈ (write_bronze_layer base table_name castDate today df (some pcols)).data.columns))) ∧
    (∀ (base table_name : String) (castDate : Value → Value) (today : Nat)
       (df : DataFrame) (pcols : Option (List String)),
      (write_bronze_layer base table_name castDate today df pcols).partitionCols
        ⊆ (write_bronze_layer base table_name castDate today df pcols).data.columns) ∧
    (∀ (store : Store) (base bronze_table silver_table : String)
       (yF mF dF : Value → Value) (optFails : Bool),
      ("year" ∈ (transform_to_silver store base bronze_table silver_table yF mF dF optFails).writeOp.data.columns →
        "month" ∈ (transform_to_silver store base bronze_table silver_table yF mF dF optFails).writeOp.data.columns) →
      (transform_to_silver store base bronze_table silver_table yF mF dF optFails).writeOp.partitionCols
        ⊆ (transform_to_silver store base bronze_table silver_table yF mF dF optFails).writeOp.data.columns) ∧
    (∀ (store : Store) (base silver_table gold_table : String) (g : GoldResult),
      create_gold_aggregations store base silver_table gold_table = Except.ok g →
      g.writeOp.partitionCols ⊆ g.writeOp.data.columns) := by
  refine ⟨?_, ?_, ?_, ?_⟩
  · intro base table_name castDate today df pcols
    exact write_bronze_partitionCols base table_name castDate today df (some pcols)
  · intro base table_name castDate today df pcols a ha
    rw [write_bronze_partitionCols] at ha
    exact of_decide_eq_true (List.mem_filter.mp ha).2
  · intro store base bronze_table silver_table yF mF dF optFails himp a ha
    rw [transform_to_silver_partitionCols] at ha
    rcases List.mem_append.mp ha with h | h
    · by_cases hy : "year" ∈ (transform_to_silver store base bronze_table silver_table yF mF dF optFails).writeOp.data.columns
      · rw [if_pos hy] at h
        rcases List.mem_cons.mp h with h1 | h1
        · rw [h1]
          exact hy
        · have h2 : a = "month" := by
            simpa using h1
          rw [h2]
          exact himp hy
      · rw [if_neg hy] at h
        exact absurd h (List.not_mem_nil a)
    · by_cases hr : "region" ∈ (transform_to_silver store base bronze_table silver_table yF mF dF optFails).writeOp.data.columns
      · rw [if_pos hr] at h
        have h2 : a = "region" := by
          simpa using h
        rw [h2]
        exact hr
      · rw [if_neg hr] at h
        exact absurd h (List.not_mem_nil a)
  · intro store base silver_table gold_table g hok
    cases hsd : store (silverPath base silver_table) with
    | none =>
      exfalso
      unfold create_gold_aggregations at hok
      rw [hsd] at hok
      exact Except.noConfusion hok
    | some sdf =>
      have hg := create_gold_ok store base silver_table gold_table sdf g hsd hok
      subst hg
      intro a ha
      rcases List.mem_append.mp ha with h | h
      · by_cases hd : "date" ∈ (goldData sdf).columns
        · rw [if_pos hd] at h
          have h2 : a = "date" := by
            simpa using h
          rw [h2]
          exact hd
        · rw [if_neg hd] at h
          exact absurd h (List.not_mem_nil a)
      · by_cases hr : "region" ∈ (goldData sdf).columns
        · rw [if_pos hr] at h
          have h2 : a = "region" := by
            simpa using h
          rw [h2]
          exact hr
        · rw [if_neg hr] at h
          exact absurd h (List.not_mem_nil a)

/-- A silver dataset holding only a date column. -/
def sdfDateOnly : DataFrame := { columns := ["date"], rows := [] }

/-- The gold result produced from sdfDateOnly. -/
def goldResultW : GoldResult :=
  { groupCols := ["date"], aggExpr := [],
    writeOp := { path := goldPath "b" "g",
                 data := { columns := ["date", "count"], rows := [] },
                 partitionCols := ["date"] } }

/-- Witness for the amended C3 at concrete inputs for each of the three
operations. -/
theorem claim_partition_subset_amended_witness :
    ((write_bronze_layer "b" "t" id 0 { columns := ["country"], rows := [] } none).partitionCols
      ⊆ (write_bronze_layer "b" "t" id 0 { columns := ["country"], rows := [] } none).data.columns) ∧
    ((transform_to_silver (fun _ => some { columns := ["region"], rows := [] })
        "b" "t" "s" id id id false).writeOp.partitionCols
      ⊆ (transform_to_silver (fun _ => some { columns := ["region"], rows := [] })
        "b" "t" "s" id id id false).writeOp.data.columns) ∧
    goldResultW.writeOp.partitionCols ⊆ goldResultW.writeOp.data.columns := by
  refine ⟨?_, ?_, ?_⟩
  · exact claim_partition_subset_amended.2.1 "b" "t" id 0 { columns := ["country"], rows := [] } none
  · exact claim_partition_subset_amended.2.2.1 (fun _ => some { columns := ["region"], rows := [] })
      "b" "t" "s" id id id false (by decide)
  · exact claim_partition_subset_amended.2.2.2 (fun _ => some sdfDateOnly) "b" "s" "g" goldResultW rfl

theorem goldData_agg (sdf : DataFrame) (h : (gold_agg_expr sdf.columns).isEmpty = false) :
    goldData sdf =
      (if "count(customer_id)" ∈
          (if "sum(amount)" ∈ (groupAgg sdf (gold_group_cols sdf.columns) (gold_agg_expr sdf.columns)).columns
            then withColumnRenamed (groupAgg sdf (gold_group_cols sdf.columns) (gold_agg_expr sdf.columns))
              "sum(amount)" "total_amount"
            else groupAgg sdf (gold_group_cols sdf.columns) (gold_agg_expr sdf.columns)).columns
        then withColumnRenamed
          (if "sum(amount)" ∈ (groupAgg sdf (gold_group_cols sdf.columns) (gold_agg_expr sdf.columns)).columns
            then withColumnRenamed (groupAgg sdf (gold_group_cols sdf.columns) (gold_agg_expr sdf.columns))
              "sum(amount)" "total_amount"
            else groupAgg sdf (gold_group_cols sdf.columns) (gold_agg_expr sdf.columns))
          "count(customer_id)" "transaction_count"
        else
          (if "sum(amount)" ∈ (groupAgg sdf (gold_group_cols sdf.columns) (gold_agg_expr sdf.columns)).columns
            then withColumnRenamed (groupAgg sdf (gold_group_cols sdf.columns) (gold_agg_expr sdf.columns))
              "sum(amount)" "total_amount"
            else groupAgg sdf (gold_group_cols sdf.columns) (gold_agg_expr sdf.columns))) := by
  simp only [goldData]
  rw [if_neg (by simp [h])]

theorem goldData_rowcount (sdf : DataFrame) (h : gold_agg_expr sdf.columns = []) :
    goldData sdf = groupCount sdf (gold_group_cols sdf.columns) := by
  simp only [goldData]
  rw [if_pos (by simp [h])]

theorem groupAgg_columns (df : DataFrame) (cols : List String) (spec : List (String × AggFn)) :
    (groupAgg df cols spec).columns = cols ++ spec.map (fun cf => aggColName cf.2 cf.1) := rfl

/-- C6: create_gold_aggregations builds its aggregation spec from only the
present columns, amount to sum and customer_id to count; the engine-named
aggregates are renamed to total_amount and transaction_count in the written
gold dataset; when neither amount nor customer_id is present the gold dataset
is a plain per-group row count. -/
theorem claim_gold_agg_spec (store : Store) (base silver_table gold_table : String)
    (sdf : DataFrame) (g : GoldResult)
    (hs : store (silverPath base silver_table) = some sdf)
    (hok : create_gold_aggregations store base silver_table gold_table = Except.ok g) :
    g.aggExpr = (if "amount" ∈ sdf.columns then [("amount", AggFn.sum)] else []) ++
      (if "customer_id" ∈ sdf.columns then [("customer_id", AggFn.count)] else []) ∧
    ("amount" ∈ sdf.columns →
      "total_amount" ∈ g.writeOp.data.columns ∧ "sum(amount)" ∉ g.writeOp.data.columns) ∧
    ("customer_id" ∈ sdf.columns →
      "transaction_count" ∈ g.writeOp.data.columns ∧ "count(customer_id)" ∉ g.writeOp.data.columns) ∧
    ("amount" ∉ sdf.columns → "customer_id" ∉ sdf.columns →
      g.writeOp.data = groupCount sdf g.groupCols) := by
  have hg := create_gold_ok store base silver_table gold_table sdf g hs hok
  subst hg
  refine ⟨rfl, ?_, ?_, ?_⟩
  · intro ham
    have hene : (gold_agg_expr sdf.columns).isEmpty = false := by
      simp [gold_agg_expr, ham]
    have hsum1 : "sum(amount)" ∈ (groupAgg sdf (gold_group_cols sdf.columns) (gold_agg_expr sdf.columns)).columns := by
      rw [groupAgg_columns]
      refine List.mem_append.mpr (Or.inr ?_)
      refine List.mem_map.mpr ⟨("amount", AggFn.sum), ?_, by decide⟩
      simp [gold_agg_expr, ham]
    have htm : "total_amount" ∈
        (withColumnRenamed (groupAgg sdf (gold_group_cols sdf.columns) (gold_agg_expr sdf.columns))
          "sum(amount)" "total_amount").columns :=
      new_mem_rename _ "sum(amount)" "total_amount" hsum1
    have hsn : "sum(amount)" ∉
        (withColumnRenamed (groupAgg sdf (gold_group_cols sdf.columns) (gold_agg_expr sdf.columns))
          "sum(amount)" "total_amount").columns :=
      not_mem_rename_of _ "sum(amount)" "total_amount" "sum(amount)" (by decide) (Or.inl rfl)
    rw [goldData_agg sdf hene, if_pos hsum1]
    by_cases hcc : "count(customer_id)" ∈
        (withColumnRenamed (groupAgg sdf (gold_group_cols sdf.columns) (gold_agg_expr sdf.columns))
          "sum(amount)" "total_amount").columns
    · rw [if_pos hcc]
      exact ⟨mem_rename_of_mem _ "count(customer_id)" "transaction_count" "total_amount" htm (by decide),
             not_mem_rename_of _ "count(customer_id)" "transaction_count" "sum(amount)" (by decide) (Or.inr hsn)⟩
    · rw [if_neg hcc]
      exact ⟨htm, hsn⟩
  · intro hci
    have hene : (gold_agg_expr sdf.columns).isEmpty = false := by
      by_cases ham : "amount" ∈ sdf.columns <;> simp [gold_agg_expr, ham, hci]
    have hcnt1 : "count(customer_id)" ∈ (groupAgg sdf (gold_group_cols sdf.columns) (gold_agg_expr sdf.columns)).columns := by
      rw [groupAgg_columns]
      refine List.mem_append.mpr (Or.inr ?_)
      refine List.mem_map.mpr ⟨("customer_id", AggFn.count), ?_, by decide⟩
      by_cases ham : "amount" ∈ sdf.columns <;> simp [gold_agg_expr, ham, hci]
    rw [goldData_agg sdf hene]
    by_cases hsums : "sum(amount)" ∈ (groupAgg sdf (gold_group_cols sdf.columns) (gold_agg_expr sdf.columns)).columns
    · rw [if_pos hsums]
      have hcnt2 : "count(customer_id)" ∈
          (withColumnRenamed (groupAgg sdf (gold_group_cols sdf.columns) (gold_agg_expr sdf.columns))
            "sum(amount)" "total_amount").columns :=
        mem_rename_of_mem _ "sum(amount)" "total_amount" "count(customer_id)" hcnt1 (by decide)
      rw [if_pos hcnt2]
      exact ⟨new_mem_rename _ "count(customer_id)" "transaction_count" hcnt2,
             not_mem_rename_of _ "count(customer_id)" "transaction_count" "count(customer_id)" (by decide) (Or.inl rfl)⟩
    · rw [if_neg hsums, if_pos hcnt1]
      exact ⟨new_mem_rename _ "count(customer_id)" "transaction_count" hcnt1,
             not_mem_rename_of _ "count(customer_id)" "transaction_count" "count(customer_id)" (by decide) (Or.inl rfl)⟩
  · intro ham hci
    have hA : gold_agg_expr sdf.columns = [] := by
      simp [gold_agg_expr, ham, hci]
    exact goldData_rowcount sdf hA

/-- A silver dataset carrying date, amount and customer_id. -/
def sdfGoldW : DataFrame := { columns := ["date", "amount", "customer_id"], rows := [] }

/-- The gold result produced from sdfGoldW. -/
def goldResultFull : GoldResult :=
  { groupCols := ["date"],
    aggExpr := [("amount", AggFn.sum), ("customer_id", AggFn.count)],
    writeOp := { path := goldPath "b" "g",
                 data := { columns := ["date", "total_amount", "transaction_count"], rows := [] },
                 partitionCols := ["date"] } }

/-- Witness for C6: with amount and customer_id present, the gold columns are
the renamed total_amount and transaction_count. -/
theorem claim_gold_agg_spec_witness :
    ("total_amount" ∈ goldResultFull.writeOp.data.columns ∧
      "sum(amount)" ∉ goldResultFull.writeOp.data.columns) ∧
    ("transaction_count" ∈ goldResultFull.writeOp.data.columns ∧
      "count(customer_id)" ∉ goldResultFull.writeOp.data.columns) := by
  have h := claim_gold_agg_spec (fun _ => some sdfGoldW) "b" "s" "g" sdfGoldW goldResultFull rfl rfl
  exact ⟨h.2.1 (by decide), h.2.2.1 (by decide)⟩

end FinanceLake
